import Mathlib

/-!
Verification development for the `webhook` package of
sunmyinf/go-workplace-webhook.

Go values are embedded as follows: Go strings and byte slices become
`List Nat` (one `Nat` per byte), machine words become `Nat` reduced
modulo `2 ^ 32` where the source relies on 32-bit overflow, and Go
functions returning `error` become `Option`- or `Except`-valued Lean
functions (`none` / `Except.ok ()` standing for a `nil` error).

The repository contains two variants of the server: `server.go`, which
keys handlers by object alone on the fixed root pattern (embedded in
namespace `Single`), and an unnamed sister file keying handlers by
URL pattern and object (embedded in namespace `Multi`).  Their
`verifySignature` functions are textually identical and are embedded
once.
-/

set_option autoImplicit false

namespace Workplace

/-! ### Bytes and 32-bit words (Go `crypto/sha1`, `crypto/hmac`, `encoding/hex`) -/

/-- Modulus of a 32-bit machine word. -/
def pow32 : Nat := 4294967296

/-- Left-rotation of a 32-bit word by `k` bits, as used by SHA-1. -/
def rotl32 (k n : Nat) : Nat :=
  (((n % pow32) <<< k) % pow32) ||| ((n % pow32) >>> (32 - k))

/-- Big-endian packing of bytes into 32-bit words (four bytes per word). -/
def bytesToWords : List Nat → List Nat
  | b0 :: b1 :: b2 :: b3 :: rest =>
      (((b0 * 256 + b1) * 256 + b2) * 256 + b3) :: bytesToWords rest
  | _ => []

/-- Big-endian unpacking of a 32-bit word into four bytes. -/
def wordToBytes (w : Nat) : List Nat :=
  [(w >>> 24) % 256, (w >>> 16) % 256, (w >>> 8) % 256, w % 256]

/-- SHA-1 round function, by round index. -/
def sha1F (i b c d : Nat) : Nat :=
  if i < 20 then (b &&& c) ||| ((b ^^^ (pow32 - 1)) &&& d)
  else if i < 40 then b ^^^ c ^^^ d
  else if i < 60 then (b &&& c) ||| (b &&& d) ||| (c &&& d)
  else b ^^^ c ^^^ d

/-- SHA-1 round constants, by round index. -/
def sha1K (i : Nat) : Nat :=
  if i < 20 then 1518500249
  else if i < 40 then 1859775393
  else if i < 60 then 2400959708
  else 3395469782

/-- Message-schedule extension: appends `k` further words, each the
left-rotation by one of the xor of the words 3, 8, 14 and 16 places back. -/
def extendWords : Nat → List Nat → List Nat
  | 0, ws => ws
  | k + 1, ws =>
      let n := ws.length
      extendWords k (ws ++ [rotl32 1 ((ws.getD (n - 3) 0) ^^^ (ws.getD (n - 8) 0)
        ^^^ (ws.getD (n - 14) 0) ^^^ (ws.getD (n - 16) 0))])

/-- The 80 SHA-1 rounds over one message schedule, starting at round `i`. -/
def sha1Rounds : Nat → List Nat → Nat × Nat × Nat × Nat × Nat → Nat × Nat × Nat × Nat × Nat
  | _, [], st => st
  | i, w :: ws, (a, b, c, d, e) =>
      let temp := (rotl32 5 a + sha1F i b c d + e + sha1K i + w) % pow32
      sha1Rounds (i + 1) ws (temp, a, rotl32 30 b, c, d)

/-- Compression of one 64-byte chunk into the running hash state. -/
def processChunk (chunk : List Nat) (h : Nat × Nat × Nat × Nat × Nat) :
    Nat × Nat × Nat × Nat × Nat :=
  let ws := extendWords 64 (bytesToWords chunk)
  let (h0, h1, h2, h3, h4) := h
  let (a, b, c, d, e) := sha1Rounds 0 ws h
  ((h0 + a) % pow32, (h1 + b) % pow32, (h2 + c) % pow32, (h3 + d) % pow32, (h4 + e) % pow32)

/-- Folds `processChunk` over `n` consecutive 64-byte chunks of `data`. -/
def processChunks : Nat → List Nat → Nat × Nat × Nat × Nat × Nat → Nat × Nat × Nat × Nat × Nat
  | 0, _, h => h
  | n + 1, data, h => processChunks n (data.drop 64) (processChunk (data.take 64) h)

/-- SHA-1 padding: a `0x80` byte, zero bytes up to 56 modulo 64, then the
bit length of the message as a 64-bit big-endian quantity. -/
def sha1Pad (msg : List Nat) : List Nat :=
  let len := msg.length
  let zeros := (119 - len % 64) % 64
  msg ++ 128 :: List.replicate zeros 0
    ++ (List.range 8).map (fun i => ((8 * len) >>> (8 * (7 - i))) % 256)

/-- SHA-1 digest of a byte string, as the 20 digest bytes
(Go `crypto/sha1`, called by `verifySignature` through `hmac.New`). -/
def sha1 (msg : List Nat) : List Nat :=
  let padded := sha1Pad msg
  let st := processChunks (padded.length / 64) padded
    (1732584193, 4023233417, 2562383102, 271733878, 3285377520)
  let (h0, h1, h2, h3, h4) := st
  wordToBytes h0 ++ wordToBytes h1 ++ wordToBytes h2 ++ wordToBytes h3 ++ wordToBytes h4

/-- HMAC-SHA1 (Go `crypto/hmac` with `sha1.New`, block size 64): keys longer
than one block are hashed, shorter ones zero-padded; the digest is
`sha1(opad ++ sha1(ipad ++ msg))`. -/
def hmacSha1 (key msg : List Nat) : List Nat :=
  let k := if 64 < key.length then sha1 key else key
  let k0 := k ++ List.replicate (64 - k.length) 0
  sha1 ((k0.map (fun b => b ^^^ 92)) ++ sha1 ((k0.map (fun b => b ^^^ 54)) ++ msg))

/-- Lowercase hexadecimal digit of a nibble, as a byte
(`'0'` is byte 48, `'a'` is byte 97). -/
def hexDigit (n : Nat) : Nat :=
  if n < 10 then 48 + n else 87 + n

/-- Go `hex.EncodeToString`: two lowercase hex digit bytes per input byte. -/
def hexEncodeBytes : List Nat → List Nat
  | [] => []
  | b :: bs => hexDigit (b / 16) :: hexDigit (b % 16) :: hexEncodeBytes bs

/-! ### Go `strings.Split` with a one-byte separator -/

/-- Go `strings.Split(s, sep)` for a single-byte separator: the list of
(possibly empty) groups of `s` between occurrences of `sep`.  On the empty
string it returns one empty group, as in Go. -/
def splitOnByte (sep : Nat) : List Nat → List (List Nat)
  | [] => [[]]
  | b :: rest =>
      if b = sep then
        [] :: splitOnByte sep rest
      else
        match splitOnByte sep rest with
        | [] => [[b]]
        | group :: groups => (b :: group) :: groups

/-! ### The signature verifier (`verifySignature` in both source files) -/

/-- The three failure cases of `verifySignature`, in source order: the
empty-header error, the fewer-than-two-split-elements error, and the
hash-comparison error. -/
inductive VerificationError where
  | missingSignature
  | malformedSignature
  | signatureMismatch
deriving DecidableEq

/-- Embedding of `verifySignature(sig, secret string, payload []byte) error`:
reject an empty header, split the header on byte 61 (the equals sign), reject
fewer than two elements, then compare element 1 against the hex-encoded
HMAC-SHA1 of the payload keyed by the secret. -/
def verifySignature (sig secret payload : List Nat) : Except VerificationError Unit :=
  if sig = [] then
    Except.error VerificationError.missingSignature
  else
    let elements := splitOnByte 61 sig
    if elements.length < 2 then
      Except.error VerificationError.malformedSignature
    else
      let signatureHash := elements.getD 1 []
      let expectedHash := hexEncodeBytes (hmacSha1 secret payload)
      if signatureHash ≠ expectedHash then
        Except.error VerificationError.signatureMismatch
      else
        Except.ok ()

/-! ### HTTP-boundary data model

The HTTP transport is external; a request is embedded as the data the
handlers actually consult: the method string, the result of `ParseForm`
on the query (absent on failure), the `X-Hub-Signature` header value
(the empty string when the header is absent, as `Header.Get` returns),
and the not-yet-consumed bytes of the body stream.  Reading the body
with `bytes.Buffer.ReadFrom` yields everything remaining and leaves the
stream empty; this consumption is modelled by replacing the `body`
field with `[]`. -/

/-- Byte string of the Go constant `http.MethodGet`, the string GET. -/
def methodGet : List Nat := [71, 69, 84]

/-- Byte string of the Go constant `http.MethodPost`, the string POST. -/
def methodPost : List Nat := [80, 79, 83, 84]

/-- Byte string of the query key `hub.mode`. -/
def hubMode : List Nat := [104, 117, 98, 46, 109, 111, 100, 101]

/-- Byte string of the query key `hub.verify_token`. -/
def hubVerifyToken : List Nat :=
  [104, 117, 98, 46, 118, 101, 114, 105, 102, 121, 95, 116, 111, 107, 101, 110]

/-- Byte string of the query key `hub.challenge`. -/
def hubChallenge : List Nat := [104, 117, 98, 46, 99, 104, 97, 108, 108, 101, 110, 103, 101]

/-- Byte string of the literal `subscribe`. -/
def subscribeValue : List Nat := [115, 117, 98, 115, 99, 114, 105, 98, 101]

/-- Parsed form data: the key-value pairs of the query in order
(Go `url.Values`, flattened; `Get` returns the first value of a key). -/
def FormData : Type := List (List Nat × List Nat)

/-- Go `Request.FormValue(key)`: the first value bound to `key`, or the
empty string when the key is absent. -/
def formValue (fd : FormData) (key : List Nat) : List Nat :=
  (List.lookup key fd).getD []

/-- An inbound HTTP request, as consumed by the handlers. -/
structure Request where
  method : List Nat
  form : Option FormData
  xHubSignature : List Nat
  body : List Nat

/-- An HTTP response: the status code written by `WriteHeader` (200 when
only `Write` is called) and the bytes written to the response body. -/
structure Response where
  status : Nat
  body : List Nat
deriving DecidableEq

/-- The envelope type of the external `decode` collaborator package
(`decode.RequestBody`); the dispatcher consults only its `Object`
discriminator, so only that field is represented.  The discriminator
(`decode.Object`) is a string. -/
structure RequestBody where
  object : List Nat

/-- An object handler `func(decode.RequestBody) error`; `none` is a `nil`
error, `some msg` an error carrying the message `msg`. -/
def Handler : Type := RequestBody → Option (List Nat)

/-! ### The single-pattern server (`server.go`) -/

namespace Single

/-- The `Server` of `server.go`: the three configured strings and the
object-keyed handler map.  The Go map is embedded as a function to
`Option`; a `nil` map and an empty map behave identically under lookup,
so the `nil`-initialisation branch of `HandleObjectFunc` collapses. -/
structure Server where
  secret : List Nat
  accessToken : List Nat
  verificationToken : List Nat
  objectHandlers : List Nat → Option Handler

/-- Embedding of `NewServer`: stores the three strings; no handler is
registered (the map starts `nil`). -/
def NewServer (secret accessToken verificationToken : List Nat) : Server :=
  ⟨secret, accessToken, verificationToken, fun _ => none⟩

/-- Embedding of `(*Server).HandleObjectFunc`: unconditionally assigns the
handler to the object key, overwriting any previous entry. -/
def HandleObjectFunc (ws : Server) (object : List Nat) (objectHandler : Handler) : Server :=
  { ws with objectHandlers := fun o =>
      if o = object then some objectHandler else ws.objectHandlers o }

/-- Embedding of `parsePostRequestBody`: buffers whatever remains of the
request body stream and feeds it to `json.Unmarshal`, embedded as the
abstract collaborator `ju` (`none` is a decode error). -/
def parsePostRequestBody (ju : List Nat → Option RequestBody) (r : Request) :
    Option RequestBody :=
  ju r.body

/-- Embedding of `(*Server).rootHandlerFunc`.  The GET arm answers the
handshake from the parsed form.  The POST arm buffers the body stream
(`bufBody.ReadFrom(r.Body)` drains it), verifies the signature over the
buffered bytes, then calls `parsePostRequestBody` on the request whose
body stream is now empty, and finally dispatches on the decoded object.
Any other method gets 403. -/
def rootHandlerFunc (ju : List Nat → Option RequestBody) (ws : Server) (r : Request) :
    Response :=
  if r.method = methodGet then
    match r.form with
    | none => ⟨400, []⟩
    | some fd =>
        if formValue fd hubMode = subscribeValue
            ∧ formValue fd hubVerifyToken = ws.verificationToken then
          ⟨200, formValue fd hubChallenge⟩
        else
          ⟨403, []⟩
  else if r.method = methodPost then
    let bufBody := r.body
    let rAfterRead : Request := { r with body := [] }
    match verifySignature r.xHubSignature ws.secret bufBody with
    | Except.error _ => ⟨403, []⟩
    | Except.ok _ =>
        match parsePostRequestBody ju rAfterRead with
        | none => ⟨400, []⟩
        | some rb =>
            match ws.objectHandlers rb.object with
            | none => ⟨200, []⟩
            | some handler =>
                match handler rb with
                | some _ => ⟨400, []⟩
                | none => ⟨200, []⟩
  else
    ⟨403, []⟩

end Single

/-! ### The multi-pattern server (the unnamed sister source file) -/

namespace Multi

/-- The `Server` of the sister file: handlers are keyed by URL pattern and
then by object (`map[string]map[decode.Object]func(...) error`).  The
outer map is embedded as a function to `Option` of the inner map. -/
structure Server where
  secret : List Nat
  accessToken : List Nat
  verificationToken : List Nat
  objectHandlers : List Nat → Option (List Nat → Option Handler)

/-- Embedding of `NewServer` of the sister file. -/
def NewServer (secret accessToken verificationToken : List Nat) : Server :=
  ⟨secret, accessToken, verificationToken, fun _ => none⟩

/-- Embedding of the two-level `HandleObjectFunc`: creates the inner map
for the pattern when absent, then assigns the handler to the object key,
overwriting any previous entry. -/
def HandleObjectFunc (ws : Server) (pattern object : List Nat) (objectHandler : Handler) :
    Server :=
  let inner := match ws.objectHandlers pattern with
    | none => fun _ => none
    | some m => m
  { ws with objectHandlers := fun p =>
      if p = pattern then
        some (fun o => if o = object then some objectHandler else inner o)
      else ws.objectHandlers p }

/-- Derived two-level lookup: the handler registered for a pattern and
object, if any. -/
def lookupHandler (ws : Server) (pattern object : List Nat) : Option Handler :=
  match ws.objectHandlers pattern with
  | none => none
  | some m => m object

/-- Embedding of `(*Server).webhookHandlerFunc`: the GET handshake of the
sister file; every other method gets 403. -/
def webhookHandlerFunc (ws : Server) (r : Request) : Response :=
  if r.method = methodGet then
    match r.form with
    | none => ⟨400, []⟩
    | some fd =>
        if formValue fd hubMode = subscribeValue
            ∧ formValue fd hubVerifyToken = ws.verificationToken then
          ⟨200, formValue fd hubChallenge⟩
        else
          ⟨403, []⟩
  else
    ⟨403, []⟩

/-- Embedding of the closure returned by `(*Server).getObjectHandlerFunc`
for a pattern.  The POST arm buffers the body, verifies the signature
over the buffered bytes, decodes the same buffered bytes through the
`json.Unmarshal` collaborator `ju`, then looks up the pattern and the
decoded object and invokes the handler.  Any other method gets 403. -/
def getObjectHandlerFunc (ju : List Nat → Option RequestBody) (ws : Server)
    (pattern : List Nat) (r : Request) : Response :=
  if r.method = methodPost then
    let bufBody := r.body
    match verifySignature r.xHubSignature ws.secret bufBody with
    | Except.error _ => ⟨403, []⟩
    | Except.ok _ =>
        match ju bufBody with
        | none => ⟨400, []⟩
        | some reqBody =>
            match ws.objectHandlers pattern with
            | none => ⟨200, []⟩
            | some objectHandlerMap =>
                match objectHandlerMap reqBody.object with
                | none => ⟨200, []⟩
                | some handler =>
                    match handler reqBody with
                    | some _ => ⟨400, []⟩
                    | none => ⟨200, []⟩
  else
    ⟨403, []⟩

end Multi

/-! ### First-separator reading of the header, following the words of the
specification ("splitting on the first equals sign") -/

/-- Stated from the claim's words, for comparison with the source: the
entire remainder of the header after the first equals sign (byte 61). -/
def afterFirstEq : List Nat → List Nat
  | [] => []
  | b :: rest => if b = 61 then rest else afterFirstEq rest

/-- The longest initial segment of a byte string containing no equals
sign (byte 61); used to characterise what the source actually compares. -/
def upToNextEq : List Nat → List Nat
  | [] => []
  | b :: rest => if b = 61 then [] else b :: upToNextEq rest

/-! ### Helper lemmas -/

theorem hexDigit_ne (n : Nat) : hexDigit n ≠ 61 := by
  unfold hexDigit
  split <;> omega

theorem hexEncodeBytes_not_mem (bs : List Nat) : 61 ∉ hexEncodeBytes bs := by
  induction bs with
  | nil => simp [hexEncodeBytes]
  | cons b bs ih =>
      simp only [hexEncodeBytes]
      intro hmem
      rcases List.mem_cons.mp hmem with h | hmem2
      · exact hexDigit_ne _ h.symm
      rcases List.mem_cons.mp hmem2 with h | hmem3
      · exact hexDigit_ne _ h.symm
      · exact ih hmem3

theorem splitOnByte_ne_nil (sep : Nat) (l : List Nat) : splitOnByte sep l ≠ [] := by
  cases l with
  | nil => simp [splitOnByte]
  | cons b rest =>
      simp only [splitOnByte]
      split
      · simp
      · split <;> simp

theorem splitOnByte_not_mem (sep : Nat) (l : List Nat) (h : sep ∉ l) :
    splitOnByte sep l = [l] := by
  induction l with
  | nil => rfl
  | cons b rest ih =>
      have hb : ¬ b = sep := fun hb => h (hb ▸ List.mem_cons_self b rest)
      have hr : sep ∉ rest := fun hr => h (List.mem_cons_of_mem b hr)
      simp [splitOnByte, hb, ih hr]

theorem splitOnByte_append (sep : Nat) (l₁ l₂ : List Nat) (h : sep ∉ l₁) :
    splitOnByte sep (l₁ ++ sep :: l₂) = l₁ :: splitOnByte sep l₂ := by
  induction l₁ with
  | nil => simp [splitOnByte]
  | cons b rest ih =>
      have hb : ¬ b = sep := fun hb => h (hb ▸ List.mem_cons_self b rest)
      have hr : sep ∉ rest := fun hr => h (List.mem_cons_of_mem b hr)
      simp [splitOnByte, hb, ih hr]

theorem upToNextEq_append (p l : List Nat) (hp : 61 ∉ p) :
    upToNextEq (p ++ 61 :: l) = p := by
  induction p with
  | nil => simp [upToNextEq]
  | cons b rest ih =>
      have hb : ¬ b = 61 := fun hb => hp (hb ▸ List.mem_cons_self b rest)
      have hr : 61 ∉ rest := fun hr => hp (List.mem_cons_of_mem b hr)
      simp [upToNextEq, hb, ih hr]

theorem afterFirstEq_append (p l : List Nat) (hp : 61 ∉ p) :
    afterFirstEq (p ++ 61 :: l) = l := by
  induction p with
  | nil => simp [afterFirstEq]
  | cons b rest ih =>
      have hb : ¬ b = 61 := fun hb => hp (hb ▸ List.mem_cons_self b rest)
      have hr : 61 ∉ rest := fun hr => hp (List.mem_cons_of_mem b hr)
      simp [afterFirstEq, hb, ih hr]

theorem splitOnByte_getD_zero (l : List Nat) :
    (splitOnByte 61 l).getD 0 [] = upToNextEq l := by
  induction l with
  | nil => rfl
  | cons b rest ih =>
      by_cases hb : b = 61
      · subst hb
        simp [splitOnByte, upToNextEq]
      · obtain ⟨g, gs, hg⟩ : ∃ g gs, splitOnByte 61 rest = g :: gs := by
          cases hsp : splitOnByte 61 rest with
          | nil => exact absurd hsp (splitOnByte_ne_nil 61 rest)
          | cons g gs => exact ⟨g, gs, rfl⟩
        rw [hg] at ih
        simp [splitOnByte, hb, hg, upToNextEq]
        simpa using ih

theorem splitOnByte_getD_one (l : List Nat) (hmem : 61 ∈ l) :
    (splitOnByte 61 l).getD 1 [] = upToNextEq (afterFirstEq l) := by
  induction l with
  | nil => simp at hmem
  | cons b rest ih =>
      by_cases hb : b = 61
      · subst hb
        have h0 := splitOnByte_getD_zero rest
        simp only [splitOnByte, if_pos rfl, afterFirstEq, List.getD] at *
        simpa using h0
      · have hmem2 : 61 ∈ rest := by
          rcases List.mem_cons.mp hmem with h | h
          · exact absurd h.symm hb
          · exact h
        obtain ⟨g, gs, hg⟩ : ∃ g gs, splitOnByte 61 rest = g :: gs := by
          cases hsp : splitOnByte 61 rest with
          | nil => exact absurd hsp (splitOnByte_ne_nil 61 rest)
          | cons g gs => exact ⟨g, gs, rfl⟩
        rw [hg] at ih
        simp [splitOnByte, hb, hg, afterFirstEq]
        simpa using ih hmem2

theorem splitOnByte_length_ge_two (l : List Nat) (hmem : 61 ∈ l) :
    2 ≤ (splitOnByte 61 l).length := by
  induction l with
  | nil => simp at hmem
  | cons b rest ih =>
      by_cases hb : b = 61
      · subst hb
        have hne : splitOnByte 61 rest ≠ [] := splitOnByte_ne_nil 61 rest
        have hpos : 1 ≤ (splitOnByte 61 rest).length := List.length_pos.mpr hne
        have heq : splitOnByte 61 (61 :: rest) = [] :: splitOnByte 61 rest := by
          simp [splitOnByte]
        rw [heq, List.length_cons]
        omega
      · have hmem2 : 61 ∈ rest := by
          rcases List.mem_cons.mp hmem with h | h
          · exact absurd h.symm hb
          · exact h
        obtain ⟨g, gs, hg⟩ : ∃ g gs, splitOnByte 61 rest = g :: gs := by
          cases hsp : splitOnByte 61 rest with
          | nil => exact absurd hsp (splitOnByte_ne_nil 61 rest)
          | cons g gs => exact ⟨g, gs, rfl⟩
        have heq : splitOnByte 61 (b :: rest) = (b :: g) :: gs := by
          simp [splitOnByte, hb, hg]
        have ih2 := ih hmem2
        rw [hg, List.length_cons] at ih2
        rw [heq, List.length_cons]
        omega

/-- A header built from any equals-free tag, an equals sign, and the
hex-encoded HMAC-SHA1 of the payload verifies successfully. -/
theorem verify_header_ok (p S B : List Nat) (hp : 61 ∉ p) :
    verifySignature (p ++ 61 :: hexEncodeBytes (hmacSha1 S B)) S B = Except.ok () := by
  have hsplit : splitOnByte 61 (p ++ 61 :: hexEncodeBytes (hmacSha1 S B))
      = p :: [hexEncodeBytes (hmacSha1 S B)] := by
    rw [splitOnByte_append 61 _ _ hp,
      splitOnByte_not_mem 61 _ (hexEncodeBytes_not_mem (hmacSha1 S B))]
  simp [verifySignature, hsplit]

/-- For a header containing an equals sign, verification succeeds exactly
when the segment between the first equals sign and the next one (or the
end) equals the hex HMAC-SHA1 of the payload keyed by the secret. -/
theorem verify_eq_ok_iff (sig S B : List Nat) (hmem : 61 ∈ sig) :
    (verifySignature sig S B = Except.ok ())
      ↔ upToNextEq (afterFirstEq sig) = hexEncodeBytes (hmacSha1 S B) := by
  have hne : sig ≠ [] := by
    intro h
    subst h
    simp at hmem
  have hlen : ¬ (splitOnByte 61 sig).length < 2 := by
    have := splitOnByte_length_ge_two sig hmem
    omega
  have hget := splitOnByte_getD_one sig hmem
  simp only [verifySignature, if_neg hne, if_neg hlen, hget]
  constructor
  · intro hok
    by_contra hne2
    rw [if_pos hne2] at hok
    exact Except.noConfusion hok
  · intro heq
    rw [if_neg (fun hc => hc heq)]

theorem method_post_ne_get : methodPost ≠ methodGet := by decide

/-! ### Claims about the signature verifier -/

/-- Claim C3: round-trip: for every body B and secret S, verifying the
canonically signed header succeeds — verify of the header sha1= followed
by the hex HMAC-SHA1 of B keyed by S, against S and B, returns success. -/
theorem c3_sign_then_verify_roundtrip (S B : List Nat) :
    verifySignature ([115, 104, 97, 49, 61] ++ hexEncodeBytes (hmacSha1 S B)) S B
      = Except.ok () := by
  have h : ([115, 104, 97, 49, 61] : List Nat) ++ hexEncodeBytes (hmacSha1 S B)
      = [115, 104, 97, 49] ++ 61 :: hexEncodeBytes (hmacSha1 S B) := by
    simp
  rw [h]
  exact verify_header_ok [115, 104, 97, 49] S B (by decide)

/-- Claim C9: the algorithm tag of the signature header is never checked:
for every tag p containing no equals sign, every secret S and body B, a
header of p, an equals sign, and the hex HMAC-SHA1 of B keyed by S
verifies successfully against S and B. -/
theorem c9_algorithm_tag_unchecked (p S B : List Nat) (hp : 61 ∉ p) :
    verifySignature (p ++ 61 :: hexEncodeBytes (hmacSha1 S B)) S B = Except.ok () :=
  verify_header_ok p S B hp

/-- Witness for C9: the tag md5 (bytes 109, 100, 53) is accepted with a
correct SHA-1 HMAC hex digest. -/
theorem c9_witness :
    (61 ∉ ([109, 100, 53] : List Nat))
    ∧ verifySignature ([109, 100, 53] ++ 61 :: hexEncodeBytes (hmacSha1 [] [])) [] []
        = Except.ok () :=
  ⟨by decide, c9_algorithm_tag_unchecked [109, 100, 53] [] [] (by decide)⟩

/-- Claim C8: verification fails with the missing-signature error exactly
when the header is the empty string, and fails with the malformed-signature
error when the non-empty header contains no equals separator. -/
theorem c8_missing_and_malformed (sig S B : List Nat) :
    (verifySignature sig S B = Except.error VerificationError.missingSignature ↔ sig = [])
    ∧ (sig ≠ [] → 61 ∉ sig →
        verifySignature sig S B = Except.error VerificationError.malformedSignature) := by
  constructor
  · constructor
    · intro h
      by_contra hs
      simp only [verifySignature, if_neg hs] at h
      split at h
      · exact VerificationError.noConfusion (Except.error.inj h)
      · split at h
        · exact VerificationError.noConfusion (Except.error.inj h)
        · exact Except.noConfusion h
    · intro h
      subst h
      rfl
  · intro hs hmem
    simp [verifySignature, hs, splitOnByte_not_mem 61 sig hmem]

/-- Witness for C8: the empty header yields the missing-signature error,
and the header consisting of the single byte 97 (no equals sign) yields
the malformed-signature error. -/
theorem c8_witness :
    verifySignature [] [] [] = Except.error VerificationError.missingSignature
    ∧ (([97] : List Nat) ≠ [] ∧ 61 ∉ ([97] : List Nat)
        ∧ verifySignature [97] [] [] = Except.error VerificationError.malformedSignature) :=
  ⟨(c8_missing_and_malformed [] [] []).1.mpr rfl, by decide, by decide,
    (c8_missing_and_malformed [97] [] []).2 (by decide) (by decide)⟩

/-- Counterexample to claim C2 as stated: for the header
sha1=(hex HMAC)=x — whose remainder after the FIRST equals sign is the
correct digest followed by =x — verification nonetheless succeeds,
because the source compares only the element between the first and
second equals signs.  So success is not equivalent to the entire
remainder equalling the digest. -/
theorem c2_counterexample :
    ¬ ((verifySignature
          ([115, 104, 97, 49] ++ 61 :: (hexEncodeBytes (hmacSha1 [107] [98]) ++ 61 :: [120]))
          [107] [98] = Except.ok ())
        ↔ afterFirstEq
            ([115, 104, 97, 49] ++ 61 :: (hexEncodeBytes (hmacSha1 [107] [98]) ++ 61 :: [120]))
          = hexEncodeBytes (hmacSha1 [107] [98])) := by
  intro hiff
  have hH : 61 ∉ hexEncodeBytes (hmacSha1 [107] [98]) := hexEncodeBytes_not_mem _
  have hmem0 : (61 : Nat) ∈ [115, 104, 97, 49]
      ++ 61 :: (hexEncodeBytes (hmacSha1 [107] [98]) ++ 61 :: [120]) := by
    simp
  have hupto : upToNextEq (afterFirstEq
      ([115, 104, 97, 49] ++ 61 :: (hexEncodeBytes (hmacSha1 [107] [98]) ++ 61 :: [120])))
      = hexEncodeBytes (hmacSha1 [107] [98]) := by
    rw [afterFirstEq_append _ _ (by decide), upToNextEq_append _ _ hH]
  have hok := (verify_eq_ok_iff _ [107] [98] hmem0).mpr hupto
  have heq := hiff.mp hok
  rw [afterFirstEq_append [115, 104, 97, 49] _ (by decide)] at heq
  have hlen := congrArg List.length heq
  simp only [List.length_append, List.length_cons, List.length_nil] at hlen
  omega

/-- Claim C2 as amended: for every header containing at least one equals
sign, verification compares the segment of the header strictly between
the first equals sign and the next one (or the end of the header) — the
second element of the split — against the hex HMAC-SHA1 of the body
keyed by the secret, succeeding exactly when they are equal. -/
theorem c2_amended_second_split_element (sig S B : List Nat) (hmem : 61 ∈ sig) :
    (verifySignature sig S B = Except.ok ())
      ↔ upToNextEq (afterFirstEq sig) = hexEncodeBytes (hmacSha1 S B) :=
  verify_eq_ok_iff sig S B hmem

/-- Witness for C2 as amended: the concrete header of bytes 97, 61, 98
contains an equals sign, and the equivalence holds there. -/
theorem c2_amended_witness :
    (61 ∈ ([97, 61, 98] : List Nat))
    ∧ ((verifySignature [97, 61, 98] [] [] = Except.ok ())
        ↔ upToNextEq (afterFirstEq [97, 61, 98]) = hexEncodeBytes (hmacSha1 [] [])) :=
  ⟨by decide, c2_amended_second_split_element [97, 61, 98] [] [] (by decide)⟩

/-! ### Claims about the dispatcher and the handshake -/

/-- Claim C4: for every handshake GET whose query parses, the response is
status 200 with body exactly the value of hub.challenge when hub.mode is
subscribe and hub.verify_token equals the configured token, and status
403 with an empty body in every other case. -/
theorem c4_handshake_response (ju : List Nat → Option RequestBody) (ws : Single.Server)
    (fd : FormData) (sig body : List Nat) :
    Single.rootHandlerFunc ju ws ⟨methodGet, some fd, sig, body⟩
      = if formValue fd hubMode = subscribeValue
            ∧ formValue fd hubVerifyToken = ws.verificationToken then
          ⟨200, formValue fd hubChallenge⟩
        else
          ⟨403, []⟩ :=
  rfl

/-- Claim C10: absent query parameters are the empty string: with an empty
configured verification token, a GET carrying hub.mode subscribe and no
hub.verify_token parameter at all succeeds with status 200 and a body
equal to hub.challenge, which is itself empty when that parameter is
also absent. -/
theorem c10_absent_params_empty (ju : List Nat → Option RequestBody)
    (secret accessToken : List Nat) (fd : FormData) (sig body : List Nat)
    (hmode : formValue fd hubMode = subscribeValue)
    (habsent : List.lookup hubVerifyToken fd = none) :
    Single.rootHandlerFunc ju (Single.NewServer secret accessToken [])
        ⟨methodGet, some fd, sig, body⟩
      = ⟨200, formValue fd hubChallenge⟩
    ∧ (List.lookup hubChallenge fd = none → formValue fd hubChallenge = []) := by
  have htok : formValue fd hubVerifyToken = [] := by
    simp [formValue, habsent]
  constructor
  · simp [Single.rootHandlerFunc, Single.NewServer, hmode, htok]
  · intro hc
    simp [formValue, hc]

/-- Witness for C10: the concrete one-entry query binding hub.mode to
subscribe, with no verify token and no challenge. -/
theorem c10_witness :
    formValue [(hubMode, subscribeValue)] hubMode = subscribeValue
    ∧ List.lookup hubVerifyToken [(hubMode, subscribeValue)] = none
    ∧ (Single.rootHandlerFunc (fun _ => none) (Single.NewServer [] [] [])
          ⟨methodGet, some [(hubMode, subscribeValue)], [], []⟩
        = ⟨200, formValue [(hubMode, subscribeValue)] hubChallenge⟩
      ∧ (List.lookup hubChallenge [(hubMode, subscribeValue)] = none
          → formValue [(hubMode, subscribeValue)] hubChallenge = [])) :=
  ⟨by decide, by decide,
    c10_absent_params_empty (fun _ => none) [] [] [(hubMode, subscribeValue)] [] []
      (by decide) (by decide)⟩

/-- Claim C5: every POST whose signature verification fails — with any of
the failure sub-kinds — gets status 403 with an empty body, for every
body and every decode collaborator, so neither the body well-formedness
nor the failure sub-kind influences the response. -/
theorem c5_invalid_signature_403 (ju : List Nat → Option RequestBody) (ws : Single.Server)
    (fm : Option FormData) (sig body : List Nat) (e : VerificationError)
    (hsig : verifySignature sig ws.secret body = Except.error e) :
    Single.rootHandlerFunc ju ws ⟨methodPost, fm, sig, body⟩ = ⟨403, []⟩ := by
  simp [Single.rootHandlerFunc, hsig, method_post_ne_get]

/-- Witness for C5: a POST with an empty signature header is rejected
with 403 and an empty body. -/
theorem c5_witness :
    verifySignature [] [] [] = Except.error VerificationError.missingSignature
    ∧ Single.rootHandlerFunc (fun _ => none) (Single.NewServer [] [] [])
        ⟨methodPost, none, [], []⟩ = ⟨403, []⟩ :=
  ⟨rfl, c5_invalid_signature_403 (fun _ => none) (Single.NewServer [] [] []) none [] []
    VerificationError.missingSignature rfl⟩

/-- Claim C1, against the source of rootHandlerFunc: the envelope is NOT
decoded from the buffered bytes.  rootHandlerFunc drains the body stream
into its buffer for signature verification, then parsePostRequestBody
reads the SAME stream again, obtaining the empty string, so for every
decode collaborator that rejects empty input (as json.Unmarshal does)
every POST with a valid signature and a decodable body — even one whose
discriminator has no registered handler — is answered with 400, not 200. -/
theorem c1_post_decodes_drained_stream (ju : List Nat → Option RequestBody)
    (ws : Single.Server) (fm : Option FormData) (sig body : List Nat) (rb : RequestBody)
    (hju : ju [] = none)
    (hsig : verifySignature sig ws.secret body = Except.ok ())
    (hparse : ju body = some rb)
    (hns : ws.objectHandlers rb.object = none) :
    Single.rootHandlerFunc ju ws ⟨methodPost, fm, sig, body⟩ = ⟨400, []⟩ := by
  simp [Single.rootHandlerFunc, Single.parsePostRequestBody, hsig, hju, method_post_ne_get]

/-- Witness for C1: a concrete POST whose body is the single byte 123,
correctly signed, decodable by the collaborator, with no handler
registered, is answered with 400. -/
theorem c1_witness :
    (fun bs => if bs = ([] : List Nat) then none
      else some (RequestBody.mk [112, 97, 103, 101])) ([] : List Nat) = none
    ∧ verifySignature ([115, 104, 97, 49] ++ 61 :: hexEncodeBytes (hmacSha1 [] [123])) [] [123]
        = Except.ok ()
    ∧ (fun bs => if bs = ([] : List Nat) then none
        else some (RequestBody.mk [112, 97, 103, 101])) [123]
        = some (RequestBody.mk [112, 97, 103, 101])
    ∧ (Single.NewServer [] [] []).objectHandlers (RequestBody.mk [112, 97, 103, 101]).object
        = none
    ∧ Single.rootHandlerFunc
        (fun bs => if bs = ([] : List Nat) then none
          else some (RequestBody.mk [112, 97, 103, 101]))
        (Single.NewServer [] [] [])
        ⟨methodPost, none, [115, 104, 97, 49] ++ 61 :: hexEncodeBytes (hmacSha1 [] [123]), [123]⟩
      = ⟨400, []⟩ :=
  ⟨rfl, verify_header_ok [115, 104, 97, 49] [] [123] (by decide), rfl, rfl,
    c1_post_decodes_drained_stream
      (fun bs => if bs = ([] : List Nat) then none
        else some (RequestBody.mk [112, 97, 103, 101]))
      (Single.NewServer [] [] []) none
      ([115, 104, 97, 49] ++ 61 :: hexEncodeBytes (hmacSha1 [] [123])) [123]
      (RequestBody.mk [112, 97, 103, 101]) rfl
      (verify_header_ok [115, 104, 97, 49] [] [123] (by decide)) rfl rfl⟩

/-- Claim C6: registration is last-write-wins and never fails: after
registering h1 then h2 for the same discriminator, the single-pattern
registry maps the discriminator to h2, the two-level registry maps the
pattern and discriminator to h2, and a subsequent event carrying that
discriminator is answered by the outcome of h2. -/
theorem c6_last_write_wins (ju : List Nat → Option RequestBody)
    (sr : Single.Server) (ws : Multi.Server) (pattern object : List Nat)
    (h1 h2 : Handler) (fm : Option FormData) (sig body : List Nat) (rb : RequestBody)
    (hsig : verifySignature sig ws.secret body = Except.ok ())
    (hju : ju body = some rb)
    (hobj : rb.object = object) :
    (Single.HandleObjectFunc (Single.HandleObjectFunc sr object h1) object h2).objectHandlers
        object = some h2
    ∧ Multi.lookupHandler
        (Multi.HandleObjectFunc (Multi.HandleObjectFunc ws pattern object h1)
          pattern object h2) pattern object = some h2
    ∧ Multi.getObjectHandlerFunc ju
        (Multi.HandleObjectFunc (Multi.HandleObjectFunc ws pattern object h1)
          pattern object h2) pattern ⟨methodPost, fm, sig, body⟩
      = ⟨if (h2 rb).isSome then 400 else 200, []⟩ := by
  refine ⟨?_, ?_, ?_⟩
  · simp [Single.HandleObjectFunc]
  · simp [Multi.lookupHandler, Multi.HandleObjectFunc]
  · cases hh : h2 rb with
    | none => simp [Multi.getObjectHandlerFunc, Multi.HandleObjectFunc, hsig, hju, hobj, hh]
    | some msg => simp [Multi.getObjectHandlerFunc, Multi.HandleObjectFunc, hsig, hju, hobj, hh]

/-- Witness for C6: registering an erroring handler and then a succeeding
one for the object page; the later registration is the one looked up and
invoked, so the signed event is answered 200. -/
theorem c6_witness :
    verifySignature ([115, 104, 97, 49] ++ 61 :: hexEncodeBytes (hmacSha1 [] [123])) [] [123]
      = Except.ok ()
    ∧ (fun bs => if bs = ([] : List Nat) then none
        else some (RequestBody.mk [112, 97, 103, 101])) [123]
        = some (RequestBody.mk [112, 97, 103, 101])
    ∧ (RequestBody.mk [112, 97, 103, 101]).object = [112, 97, 103, 101]
    ∧ ((Single.HandleObjectFunc
          (Single.HandleObjectFunc (Single.NewServer [] [] []) [112, 97, 103, 101]
            (fun _ => some [101]))
          [112, 97, 103, 101] (fun _ => none)).objectHandlers [112, 97, 103, 101]
        = some (fun _ => none)
      ∧ Multi.lookupHandler
          (Multi.HandleObjectFunc
            (Multi.HandleObjectFunc (Multi.NewServer [] [] []) [112] [112, 97, 103, 101]
              (fun _ => some [101]))
            [112] [112, 97, 103, 101] (fun _ => none)) [112] [112, 97, 103, 101]
          = some (fun _ => none)
      ∧ Multi.getObjectHandlerFunc
          (fun bs => if bs = ([] : List Nat) then none
            else some (RequestBody.mk [112, 97, 103, 101]))
          (Multi.HandleObjectFunc
            (Multi.HandleObjectFunc (Multi.NewServer [] [] []) [112] [112, 97, 103, 101]
              (fun _ => some [101]))
            [112] [112, 97, 103, 101] (fun _ => none)) [112]
          ⟨methodPost, none,
            [115, 104, 97, 49] ++ 61 :: hexEncodeBytes (hmacSha1 [] [123]), [123]⟩
        = ⟨if ((fun (_ : RequestBody) => (none : Option (List Nat)))
              (RequestBody.mk [112, 97, 103, 101])).isSome then 400 else 200, []⟩) :=
  ⟨verify_header_ok [115, 104, 97, 49] [] [123] (by decide), rfl, rfl,
    c6_last_write_wins
      (fun bs => if bs = ([] : List Nat) then none
        else some (RequestBody.mk [112, 97, 103, 101]))
      (Single.NewServer [] [] []) (Multi.NewServer [] [] []) [112] [112, 97, 103, 101]
      (fun _ => some [101]) (fun _ => none) none
      ([115, 104, 97, 49] ++ 61 :: hexEncodeBytes (hmacSha1 [] [123])) [123]
      (RequestBody.mk [112, 97, 103, 101])
      (verify_header_ok [115, 104, 97, 49] [] [123] (by decide)) rfl rfl⟩

/-- Claim C7: every POST that reaches a registered handler is answered by
status 400 when the handler returns an error and status 200 when it
succeeds, with an empty response body in both cases, so no content of
the handler's error value reaches the client and only the status code
differs. -/
theorem c7_handler_outcome_status_only (ju : List Nat → Option RequestBody)
    (ws : Multi.Server) (pattern : List Nat) (fm : Option FormData) (sig body : List Nat)
    (rb : RequestBody) (m : List Nat → Option Handler) (handler : Handler)
    (hsig : verifySignature sig ws.secret body = Except.ok ())
    (hju : ju body = some rb)
    (hmap : ws.objectHandlers pattern = some m)
    (hhandler : m rb.object = some handler) :
    Multi.getObjectHandlerFunc ju ws pattern ⟨methodPost, fm, sig, body⟩
      = ⟨if (handler rb).isSome then 400 else 200, []⟩ := by
  cases hh : handler rb with
  | none => simp [Multi.getObjectHandlerFunc, hsig, hju, hmap, hhandler, hh]
  | some msg => simp [Multi.getObjectHandlerFunc, hsig, hju, hmap, hhandler, hh]

/-- Witness for C7: a registered handler that returns an error carrying
the message bytes 69, 82, 82; the signed event is answered with status
400 and an empty body, the message nowhere in the response. -/
theorem c7_witness :
    verifySignature ([115, 104, 97, 49] ++ 61 :: hexEncodeBytes (hmacSha1 [] [123])) [] [123]
      = Except.ok ()
    ∧ (fun bs => if bs = ([] : List Nat) then none
        else some (RequestBody.mk [112, 97, 103, 101])) [123]
        = some (RequestBody.mk [112, 97, 103, 101])
    ∧ (Multi.Server.mk [] [] []
        (fun p => if p = [112]
          then some (fun o => if o = [112, 97, 103, 101]
            then some (fun _ => some [69, 82, 82]) else none)
          else none)).objectHandlers [112]
        = some (fun o => if o = [112, 97, 103, 101]
            then some (fun _ => some [69, 82, 82]) else none)
    ∧ (fun o => if o = ([112, 97, 103, 101] : List Nat)
        then some (fun (_ : RequestBody) => some ([69, 82, 82] : List Nat)) else none)
        (RequestBody.mk [112, 97, 103, 101]).object
        = some (fun _ => some [69, 82, 82])
    ∧ Multi.getObjectHandlerFunc
        (fun bs => if bs = ([] : List Nat) then none
          else some (RequestBody.mk [112, 97, 103, 101]))
        (Multi.Server.mk [] [] []
          (fun p => if p = [112]
            then some (fun o => if o = [112, 97, 103, 101]
              then some (fun _ => some [69, 82, 82]) else none)
            else none)) [112]
        ⟨methodPost, none,
          [115, 104, 97, 49] ++ 61 :: hexEncodeBytes (hmacSha1 [] [123]), [123]⟩
      = ⟨if ((fun (_ : RequestBody) => some ([69, 82, 82] : List Nat))
            (RequestBody.mk [112, 97, 103, 101])).isSome then 400 else 200, []⟩ :=
  ⟨verify_header_ok [115, 104, 97, 49] [] [123] (by decide), rfl, rfl, rfl,
    c7_handler_outcome_status_only
      (fun bs => if bs = ([] : List Nat) then none
        else some (RequestBody.mk [112, 97, 103, 101]))
      (Multi.Server.mk [] [] []
        (fun p => if p = [112]
          then some (fun o => if o = [112, 97, 103, 101]
            then some (fun _ => some [69, 82, 82]) else none)
          else none)) [112] none
      ([115, 104, 97, 49] ++ 61 :: hexEncodeBytes (hmacSha1 [] [123])) [123]
      (RequestBody.mk [112, 97, 103, 101])
      (fun o => if o = [112, 97, 103, 101]
        then some (fun _ => some [69, 82, 82]) else none)
      (fun _ => some [69, 82, 82])
      (verify_header_ok [115, 104, 97, 49] [] [123] (by decide)) rfl rfl rfl⟩

end Workplace
